import Mathlib

/-!
# Verification of the Leak-detecteur core against its specification

Shallow embedding of the recurring-charge detector, the transient and
persistent circuit breakers, the AI-backed leak classifier, the rule-based
fallback classifier, and the in-memory cache, translated from the
JavaScript sources under `src/`.  Dates are millisecond timestamps
(integers), money amounts are exact rationals, and JavaScript `null` is
modelled by `Option`.
-/

set_option autoImplicit false

set_option maxRecDepth 8000

namespace LeakDetecteur

/-! ## Data model: transactions and recurring series -/

/-- A bank transaction as consumed by `detectRecurringCharges`
(`src/lib/recurring_charges.js`).  `date` is the millisecond timestamp the
source obtains via `new Date(tx.date)`; `amount` is the exact value of
`parseFloat(tx.amount)`. -/
structure Tx where
  merchant_name : String
  date : Int
  amount : ℚ
  deriving DecidableEq, Repr

/-- The five cadence labels of `src/lib/recurring_charges.js` (the inline
handler detector in `src/transaction_analysis.js` only ever produces
`monthly` and `annual`). -/
inductive Freq where
  | weekly
  | biweekly
  | monthly
  | quarterly
  | annual
  deriving DecidableEq, Repr

/-- A detected recurring series, mirroring the object pushed by
`detectRecurringCharges`.  `avgAmount` holds the value of
`avgAmount.toFixed(2)`, i.e. the mean rounded to two decimals. -/
structure Series where
  merchant : String
  transactions : List Tx
  frequency : Freq
  avgAmount : ℚ
  lastCharge : Int
  chargeCount : Nat
  deriving DecidableEq, Repr

/-! ## Recurring charge detector (`src/lib/recurring_charges.js`) -/

/-- Strip leading and trailing whitespace from a character list (the
effect of `String.prototype.trim` on ASCII text). -/
def jsTrim (cs : List Char) : List Char :=
  ((cs.dropWhile Char.isWhitespace).reverse.dropWhile Char.isWhitespace).reverse

/-- `tx.merchant_name.toLowerCase().trim()` — the sole grouping key,
computed characterwise. -/
def normName (s : String) : String :=
  ⟨jsTrim (s.data.map Char.toLower)⟩

/-- The group of transactions filed under normalized merchant key `m`:
the source pushes each transaction onto `merchantGroups[merchant]` in
encounter order, which is exactly a filter of the input list. -/
def groupOf (txs : List Tx) (m : String) : List Tx :=
  txs.filter (fun t => normName t.merchant_name == m)

/-- First-appearance deduplication of the merchant keys, matching the
insertion order of the string-keyed object `merchantGroups` that
`Object.entries` iterates. -/
def dedupFirstGo : List String → List String → List String
  | [], _ => []
  | x :: xs, seen => if x ∈ seen then dedupFirstGo xs seen else x :: dedupFirstGo xs (x :: seen)

/-- First-appearance deduplication (JS object key order). -/
def dedupFirst (l : List String) : List String :=
  dedupFirstGo l []

/-- The normalized merchant keys of the input, in first-appearance order. -/
def merchantKeys (txs : List Tx) : List String :=
  dedupFirst (txs.map (fun t => normName t.merchant_name))

/-- Stable insertion of a transaction into a date-sorted list: the new
element goes after every element whose date is `≤` its own, which is how a
stable sort orders elements that compare equal. -/
def insertByDate (t : Tx) : List Tx → List Tx
  | [] => [t]
  | u :: us => if t.date < u.date then t :: u :: us else u :: insertByDate t us

/-- `txs.sort((a, b) => new Date(a.date) - new Date(b.date))` — a stable
ascending sort by date. -/
def sortByDate (l : List Tx) : List Tx :=
  l.foldl (fun acc t => insertByDate t acc) []

/-- Milliseconds per day, the divisor `1000 * 60 * 60 * 24`. -/
def msPerDay : Int := 86400000

/-- The list of whole-day gaps between consecutive charges:
`Math.floor((date[i] - date[i-1]) / 86400000)` for `i = 1 …`. -/
def gapsOf : List Tx → List Int
  | t :: u :: rest => Int.fdiv (u.date - t.date) msPerDay :: gapsOf (u :: rest)
  | _ => []

/-- `avgInterval`: the arithmetic mean of the consecutive gaps. -/
def avgGapOf (l : List Tx) : ℚ :=
  ((gapsOf l).sum : ℚ) / ((gapsOf l).length : ℚ)

/-- The fixed day-count bands of `src/lib/recurring_charges.js`, checked in
source order with the first match winning. -/
def classifyInterval (q : ℚ) : Option Freq :=
  if 6 ≤ q ∧ q ≤ 9 then some .weekly
  else if 13 ≤ q ∧ q ≤ 16 then some .biweekly
  else if 28 ≤ q ∧ q ≤ 32 then some .monthly
  else if 88 ≤ q ∧ q ≤ 92 then some .quarterly
  else if 363 ≤ q ∧ q ≤ 367 then some .annual
  else none

/-- The two wide bands of the handler-local detector in
`src/transaction_analysis.js` (lines 200-202): `[25,35]` or `[350,380]`,
then `avgInterval < 50 ? monthly : annual`. -/
def classifyIntervalInline (q : ℚ) : Option Freq :=
  if (25 ≤ q ∧ q ≤ 35) ∨ (350 ≤ q ∧ q ≤ 380) then
    some (if q < 50 then .monthly else .annual)
  else none

/-- Arithmetic mean of the charge amounts of a list of transactions. -/
def meanAmount (l : List Tx) : ℚ :=
  (l.map (fun t => t.amount)).sum / (l.length : ℚ)

/-- `x.toFixed(2)` over exact rationals: the nearest multiple of `1/100`,
ties resolved to the larger candidate (ECMA-262 `Number.prototype.toFixed`),
i.e. `⌊100x + 1/2⌋ / 100`. -/
def toFixed2 (q : ℚ) : ℚ :=
  ((q * 100 + 1/2).floor : ℚ) / 100

/-- The date of the chronologically last charge, `txs[txs.length - 1].date`
after the sort. -/
def lastDateOf (l : List Tx) : Int :=
  match l.getLast? with
  | some t => t.date
  | none => 0

/-- The body of the per-merchant loop, parameterized by the band
classifier so that it serves both the exported detector and the inline
handler copy (the two sources are textually identical apart from the band
block). -/
def seriesFor (cf : ℚ → Option Freq) (txs : List Tx) (m : String) : Option Series :=
  let g := groupOf txs m
  if 3 ≤ g.length then
    let sorted := sortByDate g
    match cf (avgGapOf sorted) with
    | some f =>
        some { merchant := m
               transactions := sorted
               frequency := f
               avgAmount := toFixed2 (meanAmount sorted)
               lastCharge := lastDateOf sorted
               chargeCount := sorted.length }
    | none => none
  else none

/-- The common detector pipeline: group by normalized merchant, keep groups
of three or more, sort by date, classify the mean gap. -/
def detectWith (cf : ℚ → Option Freq) (txs : List Tx) : List Series :=
  (merchantKeys txs).filterMap (seriesFor cf txs)

/-- `detectRecurringCharges` of `src/lib/recurring_charges.js`. -/
def detectRecurringCharges (txs : List Tx) : List Series :=
  detectWith classifyInterval txs

/-- The private helper `detectRecurringCharges` inlined in the
detect-leaks handler of `src/transaction_analysis.js`. -/
def detectRecurringChargesInline (txs : List Tx) : List Series :=
  detectWith classifyIntervalInline txs

/-! ### Structural lemmas about the detector -/

theorem dedupFirstGo_mem (a : String) (l : List String) :
    ∀ seen : List String, a ∈ dedupFirstGo l seen ↔ a ∈ l ∧ a ∉ seen := by
  induction l with
  | nil => intro seen; simp [dedupFirstGo]
  | cons x xs ih =>
    intro seen
    by_cases hx : x ∈ seen
    · rw [dedupFirstGo, if_pos hx, ih]
      constructor
      · exact fun h => ⟨List.mem_cons_of_mem _ h.1, h.2⟩
      · rintro ⟨h1, h2⟩
        cases h1 with
        | head => exact absurd hx h2
        | tail _ h => exact ⟨h, h2⟩
    · rw [dedupFirstGo, if_neg hx]
      simp only [List.mem_cons, ih, not_or]
      constructor
      · rintro (rfl | ⟨h1, h2, h3⟩)
        · exact ⟨Or.inl rfl, hx⟩
        · exact ⟨Or.inr h1, h3⟩
      · rintro ⟨rfl | h1, h2⟩
        · exact Or.inl rfl
        · by_cases hax : a = x
          · exact Or.inl hax
          · exact Or.inr ⟨h1, hax, h2⟩

theorem mem_merchantKeys (txs : List Tx) (m : String) :
    m ∈ merchantKeys txs ↔ ∃ t ∈ txs, normName t.merchant_name = m := by
  rw [merchantKeys, dedupFirst, dedupFirstGo_mem]
  simp [List.mem_map]

/-- Everything the `some` branch of the per-merchant loop determines about
an emitted series. -/
theorem seriesFor_some (cf : ℚ → Option Freq) (txs : List Tx) (m : String) (s : Series)
    (h : seriesFor cf txs m = some s) :
    3 ≤ (groupOf txs m).length
    ∧ cf (avgGapOf (sortByDate (groupOf txs m))) = some s.frequency
    ∧ s.merchant = m
    ∧ s.transactions = sortByDate (groupOf txs m)
    ∧ s.avgAmount = toFixed2 (meanAmount s.transactions)
    ∧ s.chargeCount = s.transactions.length
    ∧ s.lastCharge = lastDateOf s.transactions := by
  simp only [seriesFor] at h
  split at h
  next h3 =>
    split at h
    next f hf =>
      injection h with h
      subst h
      exact ⟨h3, hf, rfl, rfl, rfl, rfl, rfl⟩
    next => exact absurd h (by simp)
  next => exact absurd h (by simp)

theorem mem_detectWith (cf : ℚ → Option Freq) (txs : List Tx) (s : Series) :
    s ∈ detectWith cf txs ↔ ∃ m ∈ merchantKeys txs, seriesFor cf txs m = some s := by
  rw [detectWith]
  simp [List.mem_filterMap]

/-- If a merchant group survives the ≥3 filter and its mean gap is
classified, `seriesFor` emits exactly the record built by the source. -/
theorem seriesFor_eq_some (cf : ℚ → Option Freq) (txs : List Tx) (m : String) (f : Freq)
    (h3 : 3 ≤ (groupOf txs m).length)
    (hf : cf (avgGapOf (sortByDate (groupOf txs m))) = some f) :
    seriesFor cf txs m =
      some { merchant := m
             transactions := sortByDate (groupOf txs m)
             frequency := f
             avgAmount := toFixed2 (meanAmount (sortByDate (groupOf txs m)))
             lastCharge := lastDateOf (sortByDate (groupOf txs m))
             chargeCount := (sortByDate (groupOf txs m)).length } := by
  simp only [seriesFor, if_pos h3, hf]

/-- A group with at least three members supplies its key to `merchantKeys`. -/
theorem mem_merchantKeys_of_group (txs : List Tx) (m : String)
    (h3 : 3 ≤ (groupOf txs m).length) : m ∈ merchantKeys txs := by
  have hne : groupOf txs m ≠ [] := by
    intro h0
    rw [h0] at h3
    simp at h3
  obtain ⟨t, ht⟩ := List.exists_mem_of_ne_nil _ hne
  have hmem := List.mem_filter.mp ht
  exact (mem_merchantKeys txs m).mpr ⟨t, hmem.1, by simpa using hmem.2⟩

/-! ### Claim C1 -/

/-- C1: the detector emits a series for a normalized-merchant group exactly
when the group has at least 3 members and the mean whole-day gap of the
date-sorted charges lies in one of the five fixed bands; the assigned
frequency is the band containing the mean gap; a mean gap of 45 days is in
no band; the empty input yields the empty output. -/
theorem detector_emits_iff_bands (txs : List Tx) (m : String) :
    ((∃ s ∈ detectRecurringCharges txs, s.merchant = m) ↔
        3 ≤ (groupOf txs m).length ∧
          (classifyInterval (avgGapOf (sortByDate (groupOf txs m)))).isSome)
    ∧ (∀ s ∈ detectRecurringCharges txs, s.merchant = m →
          classifyInterval (avgGapOf (sortByDate (groupOf txs m))) = some s.frequency)
    ∧ classifyInterval 45 = none
    ∧ detectRecurringCharges [] = [] := by
  refine ⟨⟨?_, ?_⟩, ?_, by with_unfolding_all decide, rfl⟩
  · rintro ⟨s, hs, rfl⟩
    obtain ⟨m', _, hsf⟩ := (mem_detectWith _ txs s).mp hs
    obtain ⟨h3, hf, hm, -⟩ := seriesFor_some _ txs m' s hsf
    subst hm
    exact ⟨h3, by rw [hf]; rfl⟩
  · rintro ⟨h3, hsome⟩
    obtain ⟨f, hf⟩ := Option.isSome_iff_exists.mp hsome
    exact ⟨_, (mem_detectWith _ txs _).mpr
      ⟨m, mem_merchantKeys_of_group txs m h3, seriesFor_eq_some _ txs m f h3 hf⟩, rfl⟩
  · intro s hs hm
    obtain ⟨m', _, hsf⟩ := (mem_detectWith _ txs s).mp hs
    obtain ⟨-, hf, hm', -⟩ := seriesFor_some _ txs m' s hsf
    rw [← hm, hm']
    exact hf

/-- The Spotify scenario of §8 of the spec: three monthly charges, one
detected series. -/
def spotTxs : List Tx :=
  [ { merchant_name := "Spotify", date := 0, amount := 999/100 },
    { merchant_name := "Spotify ", date := 32 * msPerDay, amount := 999/100 },
    { merchant_name := "spotify", date := 59 * msPerDay, amount := 999/100 } ]

/-- The series the detector emits for `spotTxs`. -/
def spotSeries : Series :=
  { merchant := "spotify"
    transactions := spotTxs
    frequency := .monthly
    avgAmount := 999/100
    lastCharge := 59 * msPerDay
    chargeCount := 3 }

/-- On the Spotify input the detector emits exactly the expected series. -/
theorem spot_detect_eq : detectRecurringCharges spotTxs = [spotSeries] := by
  with_unfolding_all rfl

/-- C1 witness: on the concrete Spotify input the characterization is
inhabited on both sides. -/
theorem detector_emits_iff_bands_witness :
    (∃ s ∈ detectRecurringCharges spotTxs, s.merchant = "spotify")
    ∧ classifyInterval (avgGapOf (sortByDate (groupOf spotTxs "spotify"))) =
        some Freq.monthly := by
  have hmem : spotSeries ∈ detectRecurringCharges spotTxs := by
    rw [spot_detect_eq]
    exact List.mem_singleton_self _
  constructor
  · exact (detector_emits_iff_bands spotTxs "spotify").1.mpr (by with_unfolding_all decide)
  · exact (detector_emits_iff_bands spotTxs "spotify").2.1 spotSeries hmem rfl

/-! ### Claim C2 -/

/-- C2 counterexample: the source stores `avgAmount.toFixed(2)`, so a group
whose exact mean is `41/60 ≈ 0.68333` is emitted with `averageAmount`
`0.68 = 17/25`, which is not the arithmetic mean of the member amounts. -/
def c2txs : List Tx :=
  [ { merchant_name := "Spotify", date := 0, amount := 1 },
    { merchant_name := "Spotify", date := 30 * msPerDay, amount := 1 },
    { merchant_name := "Spotify", date := 60 * msPerDay, amount := 1/20 } ]

/-- C2 is false as stated: the emitted `averageAmount` is the mean rounded
to two decimals, not the mean itself. -/
theorem series_avgAmount_not_exact_mean :
    ((detectRecurringCharges c2txs).map (fun s => s.avgAmount) = [17/25])
    ∧ ((detectRecurringCharges c2txs).map (fun s => meanAmount s.transactions) = [41/60])
    ∧ (17/25 : ℚ) ≠ 41/60 := by
  refine ⟨by with_unfolding_all decide, by with_unfolding_all decide, by with_unfolding_all decide⟩

/-- C2 (amended): for every emitted series, `averageAmount` equals the
arithmetic mean of the member amounts rounded to two decimal places
(`toFixed(2)` semantics), and `chargeCount` equals the number of member
transactions. -/
theorem series_avgAmount_chargeCount (txs : List Tx) (s : Series)
    (h : s ∈ detectRecurringCharges txs) :
    s.avgAmount = toFixed2 (meanAmount s.transactions)
    ∧ s.chargeCount = s.transactions.length := by
  obtain ⟨m, _, hsf⟩ := (mem_detectWith _ txs s).mp h
  obtain ⟨-, -, -, -, ha, hc, -⟩ := seriesFor_some _ txs m s hsf
  exact ⟨ha, hc⟩

/-- C2 witness: the amended invariant evaluated on the Spotify series. -/
theorem series_avgAmount_chargeCount_witness :
    spotSeries.avgAmount = toFixed2 (meanAmount spotSeries.transactions)
    ∧ spotSeries.chargeCount = spotSeries.transactions.length :=
  series_avgAmount_chargeCount spotTxs spotSeries
    (by rw [spot_detect_eq]; exact List.mem_singleton_self _)

/-! ## Transient circuit breaker (`src/lib/errors/circuitBreaker.js`) -/

/-- The three breaker states. -/
inductive BState where
  | CLOSED
  | OPEN
  | HALF_OPEN
  deriving DecidableEq, Repr

/-- Configuration of one named `CircuitBreaker` instance; times are in
milliseconds.  Constructor defaults: 5 / 2 / 30000 / 60000. -/
structure CBConfig where
  name : String
  failureThreshold : Nat
  successThreshold : Nat
  timeout : Nat
  resetTimeout : Nat
  deriving DecidableEq, Repr

/-- The constructor defaults `options.failureThreshold || 5`,
`options.successThreshold || 2`, `options.timeout || 30000`,
`options.resetTimeout || 60000`. -/
def CBConfig.mkDefault (name : String) : CBConfig :=
  { name := name, failureThreshold := 5, successThreshold := 2,
    timeout := 30000, resetTimeout := 60000 }

/-- The mutable fields of a `CircuitBreaker`: `state`, `failureCount`,
`successCount`, `nextAttempt` (a millisecond timestamp). -/
structure CBData where
  state : BState
  failureCount : Nat
  successCount : Nat
  nextAttempt : Nat
  deriving DecidableEq, Repr

/-- The freshly constructed breaker: CLOSED, zero counters,
`nextAttempt = Date.now()` at construction time. -/
def CBData.init (now : Nat) : CBData :=
  { state := .CLOSED, failureCount := 0, successCount := 0, nextAttempt := now }

/-- Errors surfaced by `execute`: the open-circuit rejection (carrying the
message that names the service), the per-call timeout, or the wrapped
work's own failure. -/
inductive CBErr where
  | circuitOpen (msg : String)
  | timeoutErr
  | workFailed
  deriving DecidableEq, Repr

/-- `onSuccess`: reset `failureCount`; in HALF_OPEN additionally increment
`successCount` and close the circuit (CLOSED, `successCount = 0`) once the
incremented count reaches `successThreshold`. -/
def cbOnSuccess (cfg : CBConfig) (d : CBData) : CBData :=
  let d1 := { d with failureCount := 0 }
  if d.state = .HALF_OPEN then
    let sc := d.successCount + 1
    if cfg.successThreshold ≤ sc then { d1 with state := .CLOSED, successCount := 0 }
    else { d1 with successCount := sc }
  else d1

/-- `onFailure`: increment `failureCount`, reset `successCount`; once the
incremented count reaches `failureThreshold`, open the circuit with
`nextAttempt = now + resetTimeout`. -/
def cbOnFailure (cfg : CBConfig) (now : Nat) (d : CBData) : CBData :=
  let fc := d.failureCount + 1
  let d1 := { d with failureCount := fc, successCount := 0 }
  if cfg.failureThreshold ≤ fc then
    { d1 with state := .OPEN, nextAttempt := now + cfg.resetTimeout }
  else d1

/-- The body of `execute` past the OPEN gate: `Promise.race` the work
(which settles with `outcome` after `dur` milliseconds) against the
`timeout` rejection, then apply `onSuccess`/`onFailure`.  Returns the new
breaker data, the call's result, and whether the work was invoked. -/
def cbRun {α : Type} (cfg : CBConfig) (d : CBData) (now : Nat)
    (outcome : Except Unit α) (dur : Nat) : CBData × Except CBErr α × Bool :=
  let raced : Except CBErr α :=
    if cfg.timeout ≤ dur then .error .timeoutErr
    else match outcome with
      | .ok a => .ok a
      | .error _ => .error .workFailed
  match raced with
  | .ok a => (cbOnSuccess cfg d, .ok a, true)
  | .error e => (cbOnFailure cfg (now + min dur cfg.timeout) d, .error e, true)

/-- `CircuitBreaker.execute`: in OPEN before `nextAttempt`, reject with the
message naming the service without invoking the work; in OPEN at or past
`nextAttempt`, move to HALF_OPEN and run the work. -/
def cbExecute {α : Type} (cfg : CBConfig) (d : CBData) (now : Nat)
    (outcome : Except Unit α) (dur : Nat) : CBData × Except CBErr α × Bool :=
  if d.state = .OPEN ∧ now < d.nextAttempt then
    (d, .error (.circuitOpen ("Circuit breaker " ++ cfg.name ++ " is OPEN")), false)
  else
    cbRun cfg (if d.state = .OPEN then { d with state := .HALF_OPEN } else d) now outcome dur

/-! ### Claim C3 -/

/-- C3: with the breaker OPEN and `now < nextAttemptAt`, `execute` rejects
with an error naming the service and never invokes the work; with the
breaker OPEN and `now ≥ nextAttemptAt`, it transitions to HALF_OPEN and
performs exactly one invocation of the work, whose outcome is then
re-decided by `onSuccess`/`onFailure`. -/
theorem execute_open_gate {α : Type} (cfg : CBConfig) (d : CBData) (now : Nat)
    (outcome : Except Unit α) (dur : Nat) :
    (d.state = .OPEN → now < d.nextAttempt →
        cbExecute cfg d now outcome dur =
          (d, .error (.circuitOpen ("Circuit breaker " ++ cfg.name ++ " is OPEN")), false))
    ∧ (d.state = .OPEN → d.nextAttempt ≤ now →
        cbExecute cfg d now outcome dur =
          cbRun cfg { d with state := .HALF_OPEN } now outcome dur
        ∧ (cbExecute cfg d now outcome dur).2.2 = true) := by
  constructor
  · intro hs hlt
    rw [cbExecute, if_pos ⟨hs, hlt⟩]
  · intro hs hle
    have hgate : ¬(d.state = .OPEN ∧ now < d.nextAttempt) := by
      rintro ⟨-, hlt⟩
      exact absurd hle (not_le.mpr hlt)
    have he : cbExecute cfg d now outcome dur =
        cbRun cfg { d with state := .HALF_OPEN } now outcome dur := by
      rw [cbExecute, if_neg hgate, if_pos hs]
    refine ⟨he, ?_⟩
    rw [he]
    simp only [cbRun]
    split <;> rfl

/-- C3 witness: a concrete OPEN breaker before its retry time rejects
without running the work, and at the retry time it runs the work in
HALF_OPEN. -/
theorem execute_open_gate_witness :
    (cbExecute (CBConfig.mkDefault "plaid") ⟨.OPEN, 5, 0, 1000⟩ 400 (.ok (7 : Nat)) 0 =
        (⟨.OPEN, 5, 0, 1000⟩, .error (.circuitOpen "Circuit breaker plaid is OPEN"), false))
    ∧ (cbExecute (CBConfig.mkDefault "plaid") ⟨.OPEN, 5, 0, 1000⟩ 1000 (.ok (7 : Nat)) 0 =
        cbRun (CBConfig.mkDefault "plaid") ⟨.HALF_OPEN, 5, 0, 1000⟩ 1000 (.ok 7) 0) := by
  constructor
  · exact (execute_open_gate (CBConfig.mkDefault "plaid") ⟨.OPEN, 5, 0, 1000⟩ 400
      (.ok 7) 0).1 rfl (by decide)
  · exact ((execute_open_gate (CBConfig.mkDefault "plaid") ⟨.OPEN, 5, 0, 1000⟩ 1000
      (.ok 7) 0).2 rfl (by decide)).1

/-! ### Claim C4 -/

/-- The configuration of the module-level `anthropicCircuit` instance:
`failureThreshold` 3, `resetTimeout` 60000, other options defaulted. -/
def anthropicCfg : CBConfig :=
  { name := "anthropic", failureThreshold := 3, successThreshold := 2,
    timeout := 30000, resetTimeout := 60000 }

/-- A reachable breaker history: three failing calls open the circuit, a
successful trial at the retry time moves it to HALF_OPEN with
`failureCount` reset to 0 and `successCount` 1 (below the success
threshold 2). -/
def c4Script : List (Nat × Except Unit Nat) :=
  [(0, .error ()), (1, .error ()), (2, .error ()), (62000, .ok 1)]

/-- The breaker data reached by running `c4Script` from a fresh breaker. -/
def c4Reached : CBData :=
  c4Script.foldl (fun d p => (cbExecute anthropicCfg d p.1 p.2 0).1) (CBData.init 0)

/-- C4 counterexample: from the reachable HALF_OPEN state with
`failureCount = 0` (a trial success intervened), a completed failure
leaves the breaker in HALF_OPEN — it does not return the state to OPEN,
because `onFailure` only opens once `failureCount` reaches the
threshold. -/
theorem halfOpen_failure_not_reopen_cex :
    c4Reached = ⟨.HALF_OPEN, 0, 1, 60002⟩
    ∧ (cbExecute anthropicCfg c4Reached 62001 (.error () : Except Unit Nat) 0).2.2 = true
    ∧ (cbExecute anthropicCfg c4Reached 62001 (.error () : Except Unit Nat) 0).1.state =
        .HALF_OPEN
    ∧ BState.HALF_OPEN ≠ BState.OPEN := by
  refine ⟨by with_unfolding_all rfl, by with_unfolding_all rfl, by with_unfolding_all rfl,
    by decide⟩

/-- C4 (amended): the per-outcome updates realize the source state
machine — on failure the count increments, `successCount` resets, and the
circuit opens with `nextAttemptAt = now + resetTimeout` exactly when the
incremented count reaches `failureThreshold`; on success `failureCount`
resets and, in HALF_OPEN, `successCount` increments and the circuit closes
with both counters reset once the incremented count reaches
`successThreshold`; a failure completing in HALF_OPEN re-opens the circuit
iff the incremented `failureCount` reaches the threshold. -/
theorem cb_update_state_machine (cfg : CBConfig) (d : CBData) (now : Nat) :
    ((cbOnFailure cfg now d).failureCount = d.failureCount + 1
      ∧ (cbOnFailure cfg now d).successCount = 0
      ∧ (cfg.failureThreshold ≤ d.failureCount + 1 →
          (cbOnFailure cfg now d).state = .OPEN
          ∧ (cbOnFailure cfg now d).nextAttempt = now + cfg.resetTimeout)
      ∧ (d.failureCount + 1 < cfg.failureThreshold →
          (cbOnFailure cfg now d).state = d.state
          ∧ (cbOnFailure cfg now d).nextAttempt = d.nextAttempt))
    ∧ ((cbOnSuccess cfg d).failureCount = 0
      ∧ (d.state = .HALF_OPEN → cfg.successThreshold ≤ d.successCount + 1 →
          (cbOnSuccess cfg d).state = .CLOSED ∧ (cbOnSuccess cfg d).successCount = 0)
      ∧ (d.state = .HALF_OPEN → d.successCount + 1 < cfg.successThreshold →
          (cbOnSuccess cfg d).state = .HALF_OPEN
          ∧ (cbOnSuccess cfg d).successCount = d.successCount + 1)
      ∧ (d.state ≠ .HALF_OPEN →
          (cbOnSuccess cfg d).state = d.state
          ∧ (cbOnSuccess cfg d).successCount = d.successCount))
    ∧ (d.state = .HALF_OPEN →
        ((cbOnFailure cfg now d).state = .OPEN ↔ cfg.failureThreshold ≤ d.failureCount + 1)) := by
  refine ⟨⟨?_, ?_, ?_, ?_⟩, ⟨?_, ?_, ?_, ?_⟩, ?_⟩
  · rw [cbOnFailure]
    split <;> rfl
  · rw [cbOnFailure]
    split <;> rfl
  · intro h
    rw [cbOnFailure, if_pos h]
    exact ⟨rfl, rfl⟩
  · intro h
    rw [cbOnFailure, if_neg (not_le.mpr h)]
    exact ⟨rfl, rfl⟩
  · simp only [cbOnSuccess]
    split
    · split <;> rfl
    · rfl
  · intro hs hth
    simp only [cbOnSuccess]
    rw [if_pos hs, if_pos hth]
    exact ⟨rfl, rfl⟩
  · intro hs hth
    simp only [cbOnSuccess]
    rw [if_pos hs, if_neg (not_le.mpr hth)]
    exact ⟨hs ▸ rfl, rfl⟩
  · intro hs
    simp only [cbOnSuccess]
    rw [if_neg hs]
    exact ⟨rfl, rfl⟩
  · intro hs
    constructor
    · intro hopen
      by_contra hlt
      rw [cbOnFailure, if_neg hlt] at hopen
      rw [hs] at hopen
      exact absurd hopen (by decide)
    · intro h
      rw [cbOnFailure, if_pos h]

/-- C4 witness: the amended update rules evaluated at concrete states —
a third consecutive failure opens the `anthropic` breaker, and a HALF_OPEN
success below the threshold stays HALF_OPEN. -/
theorem cb_update_state_machine_witness :
    ((cbOnFailure anthropicCfg 7 ⟨.CLOSED, 2, 0, 0⟩).state = .OPEN
      ∧ (cbOnFailure anthropicCfg 7 ⟨.CLOSED, 2, 0, 0⟩).nextAttempt = 60007)
    ∧ ((cbOnSuccess anthropicCfg ⟨.HALF_OPEN, 0, 0, 0⟩).state = .HALF_OPEN
      ∧ (cbOnSuccess anthropicCfg ⟨.HALF_OPEN, 0, 0, 0⟩).successCount = 1) := by
  constructor
  · exact (cb_update_state_machine anthropicCfg ⟨.CLOSED, 2, 0, 0⟩ 7).1.2.2.1 (by decide)
  · exact (cb_update_state_machine anthropicCfg ⟨.HALF_OPEN, 0, 0, 0⟩ 7).2.1.2.2.1 rfl
      (by decide)

/-! ## Persistent circuit breaker (`src/lib/errors/PersistentCircuitBreaker.js`) -/

/-- Configuration of a `PersistentCircuitBreaker`; per the source's own
documentation, `timeout` is "the time in milliseconds to wait before
transitioning to the half-open state". -/
structure PCBConfig where
  failureThreshold : Nat
  successThreshold : Nat
  timeout : Nat
  deriving DecidableEq, Repr

/-- The constructor defaults `options.failureThreshold || 3`,
`options.successThreshold || 1`, `options.timeout || 10000`. -/
def PCBConfig.mkDefault : PCBConfig :=
  { failureThreshold := 3, successThreshold := 1, timeout := 10000 }

/-- The durable `circuit_breaker_states` record for one service. -/
structure PCBState where
  state : BState
  failure_count : Nat
  success_count : Nat
  next_attempt_at : Nat
  last_failure_at : Option Nat
  deriving DecidableEq, Repr

/-- The record `getState` inserts on first use: CLOSED, zero counters,
`next_attempt_at = Date.now()`. -/
def PCBState.init (now : Nat) : PCBState :=
  { state := .CLOSED, failure_count := 0, success_count := 0,
    next_attempt_at := now, last_failure_at := none }

/-- Errors surfaced by `fire`: the open-circuit rejection or the action's
own rethrown failure (the source defines no timeout error). -/
inductive PCBErr where
  | circuitOpen (msg : String)
  | actionFailed
  deriving DecidableEq, Repr

/-- `success(state, response)`: branches on the *stale* state object read
before the call (`stale`), updating the durable record `db1`.  In
HALF_OPEN, close once the incremented success count reaches the threshold;
otherwise only reset `failure_count`. -/
def pcbSuccessUpd (cfg : PCBConfig) (stale db1 : PCBState) : PCBState :=
  if stale.state = .HALF_OPEN then
    if cfg.successThreshold ≤ stale.success_count + 1 then
      { db1 with state := .CLOSED, failure_count := 0, success_count := 0 }
    else { db1 with success_count := stale.success_count + 1 }
  else { db1 with failure_count := 0 }

/-- `fail(state, error)`: open the circuit (state OPEN,
`next_attempt_at = now + timeout`) once the incremented failure count
reaches the threshold — note `open()` does not write `failure_count` —
otherwise record the incremented count. -/
def pcbFailUpd (cfg : PCBConfig) (now : Nat) (stale db1 : PCBState) : PCBState :=
  if cfg.failureThreshold ≤ stale.failure_count + 1 then
    { db1 with
        state := .OPEN
        next_attempt_at := now + cfg.timeout
        last_failure_at := some now }
  else { db1 with failure_count := stale.failure_count + 1, last_failure_at := some now }

/-- `PersistentCircuitBreaker.fire`: gate on the stored state, then await
the action.  The source awaits `this.action(...args)` directly — there is
no `Promise.race` and no per-call timeout — so the result cannot depend on
how long the action takes; `dur` (the action's duration in milliseconds)
is threaded through only so that this independence is expressible. -/
def pcbFire {α : Type} (cfg : PCBConfig) (db : PCBState) (now : Nat)
    (outcome : Except Unit α) (dur : Nat) : PCBState × Except PCBErr α × Bool :=
  if db.state = .OPEN ∧ now < db.next_attempt_at then
    (db, .error (.circuitOpen "Circuit is open. Please try again later."), false)
  else
    let db1 := if db.state = .OPEN then { db with state := .HALF_OPEN } else db
    match outcome with
    | .ok a => (pcbSuccessUpd cfg db db1, .ok a, true)
    | .error _ => (pcbFailUpd cfg now db db1, .error .actionFailed, true)

/-! ### Claim C7 -/

/-- C7 counterexample: with the default configuration (per-claim timeout
10s) an action taking 10001 ms > 10000 ms that succeeds is counted as a
success — `fire` returns the action's value and the breaker stays CLOSED
with `failure_count` 0, instead of counting a failure with a
`TimeoutError` as the claim requires. -/
theorem pcbFire_timeout_cex :
    pcbFire PCBConfig.mkDefault (PCBState.init 0) 0 (.ok (7 : Nat)) 10001 =
      (PCBState.init 0, .ok 7, true)
    ∧ PCBConfig.mkDefault.timeout = 10000
    ∧ 10000 < 10001 := by
  refine ⟨by with_unfolding_all rfl, rfl, by decide⟩

/-- C7 (amended): the durable breaker's defaults are
failureThreshold = 3, successThreshold = 1, timeout = 10000 ms, but `fire`
does not race the action against a per-call timeout: its entire result
(new durable state, returned value, whether the action ran) is independent
of the action's duration, no `TimeoutError` exists in this component, and
the `timeout` option is instead the delay written into `next_attempt_at`
when the circuit opens. -/
theorem pcbFire_no_timeout_race {α : Type} (cfg : PCBConfig) (db : PCBState) (now : Nat)
    (outcome : Except Unit α) (dur dur' : Nat) :
    pcbFire cfg db now outcome dur = pcbFire cfg db now outcome dur'
    ∧ (PCBConfig.mkDefault.failureThreshold = 3
      ∧ PCBConfig.mkDefault.successThreshold = 1
      ∧ PCBConfig.mkDefault.timeout = 10000)
    ∧ (∀ e, outcome = .error e → ¬(db.state = .OPEN ∧ now < db.next_attempt_at) →
        cfg.failureThreshold ≤ db.failure_count + 1 →
        (pcbFire cfg db now outcome dur).1.state = .OPEN
        ∧ (pcbFire cfg db now outcome dur).1.next_attempt_at = now + cfg.timeout) := by
  refine ⟨rfl, ⟨rfl, rfl, rfl⟩, ?_⟩
  rintro e rfl hgate hth
  simp only [pcbFire, if_neg hgate]
  constructor
  · split <;> · simp only [pcbFailUpd]
                rw [if_pos hth]
  · split <;> · simp only [pcbFailUpd]
                rw [if_pos hth]

/-- C7 witness: a fourth consecutive failure (counts also ignore duration)
opens the durable `anthropic` breaker with the 10-second delay. -/
theorem pcbFire_no_timeout_race_witness :
    (pcbFire PCBConfig.mkDefault ⟨.CLOSED, 2, 0, 0, none⟩ 5
        (.error () : Except Unit Nat) 0).1.state = .OPEN
    ∧ (pcbFire PCBConfig.mkDefault ⟨.CLOSED, 2, 0, 0, none⟩ 5
        (.error () : Except Unit Nat) 0).1.next_attempt_at = 10005 :=
  (pcbFire_no_timeout_race PCBConfig.mkDefault ⟨.CLOSED, 2, 0, 0, none⟩ 5
      (.error ()) 0 0).2.2 () rfl (by decide) (by decide)

/-! ## AI-backed leak classifier (`src/lib/ai_analyzer.js`)

The response text is modelled as a `List Char`; the JSON parse
(`JSON.parse`, external to the repository) is a parameter
`parse : List Char → Option (List α)` returning `none` exactly when
`JSON.parse` throws on that text. -/

/-- The evidence payload attached to every AI-derived leak,
`evidence: { ai_analysis: true }`. -/
structure Evidence where
  ai_analysis : Bool
  deriving DecidableEq, Repr

/-- A database-shaped leak as returned by `analyzeWithAI`: the parsed item
plus the attached `audit_id` and evidence tag. -/
structure OutLeak (α : Type) where
  audit_id : String
  item : α
  evidence : Evidence
  deriving DecidableEq, Repr

/-- The map applied to each parsed item: attach the `auditId` and tag the
evidence as machine-derived. -/
def attachAudit {α : Type} (aid : String) (a : α) : OutLeak α :=
  { audit_id := aid, item := a, evidence := { ai_analysis := true } }

/-- Index of the first occurrence of `c`, if any. -/
def firstIdxOf (c : Char) : List Char → Option Nat
  | [] => none
  | x :: xs => if x = c then some 0 else (firstIdxOf c xs).map (fun n => n + 1)

/-- Index of the last occurrence of `c`, if any. -/
def lastIdxOf (c : Char) (cs : List Char) : Option Nat :=
  match firstIdxOf c cs.reverse with
  | some r => some (cs.length - 1 - r)
  | none => none

/-- `content.match(/\[[\s\S]*\]/)`: the regex is greedy, so a match, when
one exists, runs from the first `[` of the text to the last `]` of the
text; there is a match exactly when some `]` occurs after the first `[`. -/
def jsonSpan (cs : List Char) : Option (List Char) :=
  match firstIdxOf '[' cs, lastIdxOf ']' cs with
  | some i, some j => if i < j then some ((cs.drop i).take (j - i + 1)) else none
  | _, _ => none

/-- `analyzeWithAI`, as a function of the circuit-breaker call's outcome
(`.error` when the breaker rejected or the call/`response.content[0].text`
access failed, `.ok text` otherwise): every failure path of the source's
`try/catch` resolves to `[]`; a successful parse is mapped through
`attachAudit`. -/
def analyzeWithAI {α : Type} (parse : List Char → Option (List α))
    (outcome : Except Unit (List Char)) (aid : String) : List (OutLeak α) :=
  match outcome with
  | .error _ => []
  | .ok content =>
    match jsonSpan content with
    | none => []
    | some sub =>
      match parse sub with
      | none => []
      | some ls => ls.map (attachAudit aid)

/-! ### Claim C5 -/

/-- C5: the classifier resolves on every input — to `[]` when the breaker
rejects the call, when no bracketed substring is found, or when parsing
throws — and on a successful parse every returned leak carries the given
`auditId` and the machine-derived evidence tag. -/
theorem analyzeWithAI_total (α : Type) (parse : List Char → Option (List α)) (aid : String) :
    (∀ e, analyzeWithAI parse (.error e) aid = [])
    ∧ (∀ content, jsonSpan content = none → analyzeWithAI parse (.ok content) aid = [])
    ∧ (∀ content sub, jsonSpan content = some sub → parse sub = none →
        analyzeWithAI parse (.ok content) aid = [])
    ∧ (∀ content sub ls, jsonSpan content = some sub → parse sub = some ls →
        analyzeWithAI parse (.ok content) aid = ls.map (attachAudit aid))
    ∧ (∀ outcome, ∀ l ∈ analyzeWithAI parse outcome aid,
        l.audit_id = aid ∧ l.evidence = { ai_analysis := true }) := by
  refine ⟨fun e => rfl, ?_, ?_, ?_, ?_⟩
  · intro content h
    simp only [analyzeWithAI, h]
  · intro content sub h hp
    simp only [analyzeWithAI, h, hp]
  · intro content sub ls h hp
    simp only [analyzeWithAI, h, hp]
  · intro outcome l hl
    match outcome with
    | .error e => exact absurd hl (by simp [analyzeWithAI])
    | .ok content =>
      simp only [analyzeWithAI] at hl
      split at hl
      · exact absurd hl (List.not_mem_nil l)
      · split at hl
        · exact absurd hl (List.not_mem_nil l)
        · obtain ⟨a, -, ha⟩ := List.mem_map.mp hl
          subst ha
          exact ⟨rfl, rfl⟩

/-- C5 witness: the §8 scenario — a response that is not JSON resolves to
`[]`, and a well-formed response is tagged with the audit id. -/
theorem analyzeWithAI_total_witness :
    analyzeWithAI (fun _ => (none : Option (List Nat))) (.ok "This is not JSON.".data)
        "audit-123" = []
    ∧ analyzeWithAI (fun _ => some [5]) (.ok "[5]".data) "audit-123" =
        [{ audit_id := "audit-123", item := 5, evidence := { ai_analysis := true } }] := by
  constructor
  · exact (analyzeWithAI_total Nat (fun _ => none) "audit-123").2.1 "This is not JSON.".data
      (by decide)
  · exact (analyzeWithAI_total Nat (fun _ => some [5]) "audit-123").2.2.2.1 "[5]".data
      "[5]".data [5] (by decide) rfl

/-! ### Claim C6

To compare the source's bracket heuristic with the spec's "first
well-formed array-shaped JSON substring", `JSON.parse` is instantiated on
the subset it is actually fed in the counterexample: arrays of nonnegative
integers with JSON whitespace. -/

/-- Skip JSON whitespace (space, tab, newline, carriage return). -/
def skipWs : List Char → List Char
  | [] => []
  | c :: cs => if c = ' ' ∨ c = '\t' ∨ c = '\n' ∨ c = '\r' then skipWs cs else c :: cs

/-- Split a leading run of decimal digits from the rest. -/
def takeDigits : List Char → List Char × List Char
  | [] => ([], [])
  | c :: cs =>
    if c.isDigit then
      let p := takeDigits cs
      (c :: p.1, p.2)
    else ([], c :: cs)

/-- Numeric value of a digit run. -/
def natOfDigits (ds : List Char) : Nat :=
  ds.foldl (fun n c => n * 10 + (c.toNat - 48)) 0

/-- Parse the comma-separated items of a nonempty JSON array, consuming up
to and including the closing bracket; returns the items and the remaining
text. -/
def parseItems : Nat → List Char → Option (List Nat × List Char)
  | 0, _ => none
  | fuel + 1, cs =>
    let p := takeDigits (skipWs cs)
    if p.1 = [] then none
    else
      let n := natOfDigits p.1
      match skipWs p.2 with
      | ',' :: cs3 =>
        (match parseItems fuel cs3 with
          | some (ns, r) => some (n :: ns, r)
          | none => none)
      | ']' :: cs3 => some ([n], cs3)
      | _ => none

/-- `JSON.parse` restricted to arrays of nonnegative integers: succeeds
exactly on `ws [ ws ] ws` or `ws [ items ] ws` with nothing after the
closing bracket, as `JSON.parse` does on such texts. -/
def parseNatArray (cs : List Char) : Option (List Nat) :=
  match skipWs cs with
  | '[' :: rest =>
    (match skipWs rest with
      | ']' :: r => if skipWs r = [] then some [] else none
      | _ =>
        match parseItems (rest.length + 1) rest with
        | some (ns, r) => if skipWs r = [] then some ns else none
        | none => none)
  | _ => none

/-- Modelled from the spec: "locate the first well-formed array-shaped
JSON substring within it (tolerating surrounding prose) and parse only
that substring" — the substring with the earliest start position (and the
shortest length there) on which the JSON parse succeeds. -/
def firstJsonArraySub (wf : List Char → Option (List Nat)) (cs : List Char) :
    Option (List Char) :=
  (List.range (cs.length + 1)).findSome? (fun i =>
    (List.range (cs.length + 1)).findSome? (fun len =>
      let sub := (cs.drop i).take len
      match wf sub with
      | some _ => some sub
      | none => none))

/-- C6 counterexample: the response `"Here:[1] tail]"` contains the
well-formed array `"[1]"` followed by prose, so the claim demands the leak
parsed from `"[1]"`; but the source's greedy regex spans from the first
`[` to the last `]`, yielding `"[1] tail]"`, which does not parse, and the
classifier returns `[]`. -/
theorem analyzeWithAI_greedy_cex :
    firstJsonArraySub parseNatArray "Here:[1] tail]".data = some "[1]".data
    ∧ parseNatArray "[1]".data = some [1]
    ∧ jsonSpan "Here:[1] tail]".data = some "[1] tail]".data
    ∧ parseNatArray "[1] tail]".data = none
    ∧ analyzeWithAI parseNatArray (.ok "Here:[1] tail]".data) "a1" = []
    ∧ ([1].map (attachAudit "a1") : List (OutLeak Nat)) ≠ [] := by
  refine ⟨by decide, by decide, by decide, by decide, by decide, by decide⟩

/-- The first occurrence of `c` in `pre ++ c :: rest` when `c ∉ pre`. -/
theorem firstIdxOf_append_cons (c : Char) (pre rest : List Char) (h : c ∉ pre) :
    firstIdxOf c (pre ++ c :: rest) = some pre.length := by
  induction pre with
  | nil => simp [firstIdxOf]
  | cons x xs ih =>
    have hx : ¬x = c := fun hxc => h (hxc ▸ List.mem_cons_self x xs)
    have hnotin : c ∉ xs := fun hm => h (List.mem_cons_of_mem _ hm)
    simp [firstIdxOf, hx, ih hnotin]

/-- The last `]` of `pre ++ [ mid ] ++ post` is the array's own closing
bracket when `post` contains none. -/
theorem lastIdxOf_decomp (pre mid post : List Char) (hpost : ']' ∉ post) :
    lastIdxOf ']' (pre ++ ('[' :: mid ++ [']']) ++ post) =
      some (pre.length + mid.length + 1) := by
  rw [lastIdxOf]
  have hrev : (pre ++ ('[' :: mid ++ [']']) ++ post).reverse =
      post.reverse ++ ']' :: (mid.reverse ++ '[' :: pre.reverse) := by
    simp
  rw [hrev, firstIdxOf_append_cons ']' post.reverse _ (by simpa using hpost)]
  simp only [List.length_append, List.length_cons, List.length_reverse, List.length_nil,
    Option.some.injEq]
  omega

/-- The greedy bracket span of `pre ++ [ mid ] ++ post` is exactly the
array when `pre` has no `[` and `post` has no `]`. -/
theorem jsonSpan_decomp (pre mid post : List Char)
    (hpre : '[' ∉ pre) (hpost : ']' ∉ post) :
    jsonSpan (pre ++ ('[' :: mid ++ [']']) ++ post) = some ('[' :: mid ++ [']']) := by
  have h1 : firstIdxOf '[' (pre ++ ('[' :: mid ++ [']']) ++ post) = some pre.length := by
    have h := firstIdxOf_append_cons '[' pre ((mid ++ [']']) ++ post) hpre
    have e : pre ++ '[' :: ((mid ++ [']']) ++ post) =
        pre ++ ('[' :: mid ++ [']']) ++ post := by
      simp
    rwa [e] at h
  simp only [jsonSpan, h1, lastIdxOf_decomp pre mid post hpost]
  rw [if_pos (by omega)]
  have e2 : pre.length + mid.length + 1 - pre.length + 1 = ('[' :: mid ++ [']']).length := by
    simp only [List.length_cons, List.length_append, List.length_nil]
    omega
  have e3 : (pre ++ ('[' :: mid ++ [']']) ++ post).drop pre.length =
      ('[' :: mid ++ [']']) ++ post := by
    rw [List.append_assoc, List.drop_left]
  rw [e2, e3, List.take_left]

/-- C6 (amended): the classifier parses exactly the substring running from
the first `[` of the response to its last `]`; consequently, when the
response is a well-formed JSON array surrounded by prose with no `[`
before it and no `]` after it, the parsed leaks are those of that array
(trailing prose containing `]` instead makes the parse fail and the result
empty, as the counterexample shows). -/
theorem analyzeWithAI_first_array {α : Type} (parse : List Char → Option (List α))
    (aid : String) (pre mid post : List Char) (ls : List α)
    (hpre : '[' ∉ pre) (hpost : ']' ∉ post)
    (hp : parse ('[' :: mid ++ [']']) = some ls) :
    analyzeWithAI parse (.ok (pre ++ ('[' :: mid ++ [']']) ++ post)) aid =
      ls.map (attachAudit aid) := by
  simp only [analyzeWithAI, jsonSpan_decomp pre mid post hpre hpost, hp]

/-- C6 amended witness: `"Result: [1] done."` parses to the single leak of
the array `[1]`. -/
theorem analyzeWithAI_first_array_witness :
    analyzeWithAI parseNatArray
        (.ok ("Result: ".data ++ ('[' :: "1".data ++ [']']) ++ " done.".data)) "a2" =
      [1].map (attachAudit "a2") :=
  analyzeWithAI_first_array parseNatArray "a2" "Result: ".data "1".data " done.".data [1]
    (by decide) (by decide) (by decide)

/-! ## Rule-based fallback classifier (`src/lib/errors/fallbacks.js`)

`FallbackStrategies.fallbackLeakDetection`.  The prose `description` and
`recommendation` fields are not modelled; every typed and numeric field
is.  The `avgAmount` of an input series is its numeric value (the
detector's two-decimal string coerced back by JavaScript arithmetic). -/

/-- The three leak kinds the fallback rules emit. -/
inductive LeakType where
  | free_alternative
  | zombie
  | unused
  deriving DecidableEq, Repr

/-- A leak record emitted by the fallback classifier. -/
structure FLeak where
  merchant_name : String
  leak_type : LeakType
  monthly_cost : ℚ
  annual_cost : ℚ
  confidence_score : ℚ
  deriving DecidableEq, Repr

/-- `need` is a prefix of `hay`. -/
def hasPrefixChars : List Char → List Char → Bool
  | [], _ => true
  | _ :: _, [] => false
  | n :: ns, h :: hs => (n = h) && hasPrefixChars ns hs

/-- `hay.includes(need)`: `need` occurs contiguously in `hay`. -/
def containsSub (need hay : List Char) : Bool :=
  match hay with
  | [] => need.isEmpty
  | _ :: hs => hasPrefixChars need hay || containsSub need hs

/-- The fixed free-software list of rule 1. -/
def freeTools : List String := ["vscode", "winzip", "winrar", "vlc", "7-zip"]

/-- `charge.frequency === 'monthly' ? charge.avgAmount : charge.avgAmount / 12`. -/
def monthlyOf (c : Series) : ℚ :=
  if c.frequency = .monthly then c.avgAmount else c.avgAmount / 12

/-- `charge.frequency === 'annual' ? charge.avgAmount : charge.avgAmount * 12`. -/
def annualOf (c : Series) : ℚ :=
  if c.frequency = .annual then c.avgAmount else c.avgAmount * 12

/-- `Math.floor((Date.now() - new Date(charge.lastCharge)) / 86400000)`. -/
def daysSinceLast (now : Int) (c : Series) : Int :=
  Int.fdiv (now - c.lastCharge) msPerDay

/-- The three independent rules applied to one series, in source order:
free-alternative (confidence 0.95), zombie after more than 90 days
(0.75), and high monthly cost above 100 (0.60). -/
def fallbackRulesFor (now : Int) (c : Series) : List FLeak :=
  let merchant := c.merchant.data.map Char.toLower
  let rule1 : List FLeak :=
    if freeTools.any (fun tool => containsSub tool.data merchant) then
      [{ merchant_name := c.merchant, leak_type := .free_alternative,
         monthly_cost := monthlyOf c, annual_cost := annualOf c,
         confidence_score := 95/100 }]
    else []
  let rule2 : List FLeak :=
    if 90 < daysSinceLast now c then
      [{ merchant_name := c.merchant, leak_type := .zombie,
         monthly_cost := monthlyOf c, annual_cost := annualOf c,
         confidence_score := 75/100 }]
    else []
  let rule3 : List FLeak :=
    if 100 < monthlyOf c then
      [{ merchant_name := c.merchant, leak_type := .unused,
         monthly_cost := monthlyOf c, annual_cost := monthlyOf c * 12,
         confidence_score := 60/100 }]
    else []
  rule1 ++ rule2 ++ rule3

/-- `fallbackLeakDetection`: the rules over every input series. -/
def fallbackLeakDetection (now : Int) (charges : List Series) : List FLeak :=
  charges.flatMap (fallbackRulesFor now)

/-! ### Claim C8 -/

/-- A weekly series paying 12 for a free tool: the fallback's
free-alternative rule computes `monthly = 12/12 = 1` but
`annual = 12 * 12 = 144`. -/
def wkVsSeries : Series :=
  { merchant := "vscode pro", transactions := [], frequency := .weekly,
    avgAmount := 12, lastCharge := 0, chargeCount := 3 }

/-- C8 counterexample: for a non-monthly, non-annual frequency the emitted
annual cost is `avgAmount * 12 = 144`, which is not twelve times the
monthly cost `avgAmount / 12 = 1`. -/
theorem fallback_annual_cost_cex :
    fallbackLeakDetection 0 [wkVsSeries] =
      [{ merchant_name := "vscode pro", leak_type := .free_alternative,
         monthly_cost := 1, annual_cost := 144, confidence_score := 95/100 }]
    ∧ (144 : ℚ) ≠ 12 * 1 := by
  refine ⟨by with_unfolding_all rfl, by with_unfolding_all decide⟩

/-- C8 (amended): every leak of the high-cost rule has
`annual = 12 * monthly`; for the free-alternative and zombie rules the
monthly cost is `avgAmount` (monthly frequency) or `avgAmount / 12` and
the annual cost is `avgAmount` (annual frequency) or `avgAmount * 12`, so
`annual = 12 * monthly` holds exactly on monthly and annual series and
fails on the other cadences. -/
theorem fallback_cost_structure (now : Int) (c : Series) (l : FLeak)
    (h : l ∈ fallbackRulesFor now c) :
    (l.leak_type = .unused → l.annual_cost = 12 * l.monthly_cost)
    ∧ (c.frequency = .monthly ∨ c.frequency = .annual →
        l.annual_cost = 12 * l.monthly_cost)
    ∧ (l.leak_type ≠ .unused →
        l.monthly_cost = monthlyOf c ∧ l.annual_cost = annualOf c)
    ∧ l ∈ fallbackLeakDetection now [c] := by
  have hfull : l ∈ fallbackLeakDetection now [c] := by
    simp [fallbackLeakDetection]
    exact h
  have hann : c.frequency = .monthly ∨ c.frequency = .annual →
      annualOf c = 12 * monthlyOf c := by
    rintro (hm | ha)
    · rw [monthlyOf, if_pos hm, annualOf, if_neg (by rw [hm]; decide)]
      ring
    · rw [monthlyOf, if_neg (by rw [ha]; decide), annualOf, if_pos ha]
      field_simp
  simp only [fallbackRulesFor, List.mem_append] at h
  rcases h with (h | h) | h
  · split at h
    · rw [List.mem_singleton] at h
      subst h
      exact ⟨fun hc => absurd hc (by simp), hann, fun _ => ⟨rfl, rfl⟩, hfull⟩
    · exact absurd h (List.not_mem_nil l)
  · split at h
    · rw [List.mem_singleton] at h
      subst h
      exact ⟨fun hc => absurd hc (by simp), hann, fun _ => ⟨rfl, rfl⟩, hfull⟩
    · exact absurd h (List.not_mem_nil l)
  · split at h
    · rw [List.mem_singleton] at h
      subst h
      refine ⟨fun _ => by ring, fun _ => by ring, fun hc => absurd rfl hc, hfull⟩
    · exact absurd h (List.not_mem_nil l)

/-- A monthly series for a free tool, and the leak the fallback emits
for it. -/
def moVsSeries : Series :=
  { merchant := "VSCode", transactions := [], frequency := .monthly,
    avgAmount := 10, lastCharge := 0, chargeCount := 3 }

/-- The leak the fallback emits for `moVsSeries`. -/
def moVsLeak : FLeak :=
  { merchant_name := "VSCode"
    leak_type := .free_alternative
    monthly_cost := 10
    annual_cost := 120
    confidence_score := 95/100 }

/-- The fallback emits exactly one free-alternative leak for
`moVsSeries`. -/
theorem moVs_rules_eq : fallbackRulesFor 0 moVsSeries = [moVsLeak] := by
  with_unfolding_all rfl

/-- C8 witness: on the monthly series the emitted leak satisfies
`annual = 12 * monthly`. -/
theorem fallback_cost_structure_witness :
    moVsLeak.annual_cost = 12 * moVsLeak.monthly_cost :=
  (fallback_cost_structure 0 moVsSeries moVsLeak
      (by rw [moVs_rules_eq]; exact List.mem_singleton_self _)).2.1 (Or.inl rfl)

/-! ## In-memory cache (`src/lib/optimization/cache.js`)

JavaScript values include `null`, so a stored value is an `Option β` with
`none` playing `null` — `get` returns `null` both for a missing/expired
key and for a stored `null`, exactly as the source does.  The `store` and
`ttl` maps are combined into one association list (the class's methods
keep the two maps key-synchronized).  Times are millisecond timestamps. -/

/-- A cache: each key maps to its stored value and its expiry time. -/
def CacheState (β : Type) : Type := List (String × (Option β × Nat))

/-- `Map.get`-style lookup. -/
def assocFind {β : Type} (k : String) : List (String × β) → Option β
  | [] => none
  | (k', v) :: rest => if k' = k then some v else assocFind k rest

/-- `Map.set`: overwrite in place or append. -/
def assocSet {β : Type} (k : String) (v : β) : List (String × β) → List (String × β)
  | [] => [(k, v)]
  | (k', v') :: rest => if k' = k then (k, v) :: rest else (k', v') :: assocSet k v rest

/-- `Map.delete`. -/
def assocErase {β : Type} (k : String) : List (String × β) → List (String × β)
  | [] => []
  | (k', v') :: rest => if k' = k then rest else (k', v') :: assocErase k rest

/-- `set(key, value, ttlSeconds)`: store the value with expiry
`Date.now() + ttlSeconds * 1000`. -/
def cacheSet {β : Type} (st : CacheState β) (k : String) (v : Option β)
    (ttlSeconds now : Nat) : CacheState β :=
  assocSet k (v, now + ttlSeconds * 1000) st

/-- `get(key)`: `null` on a missing key; on `Date.now() > expiry` delete
the entry and return `null`; otherwise return the stored value. -/
def cacheGet {β : Type} (st : CacheState β) (k : String) (now : Nat) :
    CacheState β × Option β :=
  match assocFind k st with
  | none => (st, none)
  | some (v, expiry) => if expiry < now then (assocErase k st, none) else (st, v)

/-- `getOrSet(key, fn, ttlSeconds)`: return the cached value if `get`
yielded non-`null`; otherwise compute, store with a fresh expiry, and
return the computed value.  The third component records whether
`computeFn` was invoked. -/
def cacheGetOrSet {β : Type} (st : CacheState β) (k : String) (compute : Option β)
    (ttlSeconds now : Nat) : CacheState β × Option β × Bool :=
  let r := cacheGet st k now
  match r.2 with
  | some b => (r.1, some b, false)
  | none => (cacheSet r.1 k compute ttlSeconds now, compute, true)

/-! ### Claim C9 -/

/-- A cache holding `null` under `"k"`, stored through the public `set`
with a 1000-second TTL at time 0. -/
def nullCache : CacheState Nat := cacheSet [] "k" none 1000 0

/-- C9 counterexample: `"k"` holds the cached value `null`, unexpired at
`now = 5`, yet `getOrSet` invokes `computeFn` (because `get` conflates a
stored `null` with absence via the `!== null` check) and returns the
computed value instead of the cached one. -/
theorem cache_getOrSet_null_cex :
    assocFind "k" nullCache = some (none, 1000000)
    ∧ (5 : Nat) ≤ 1000000
    ∧ (cacheGetOrSet nullCache "k" (some 42) 300 5).2.2 = true
    ∧ (cacheGetOrSet nullCache "k" (some 42) 300 5).2.1 = some 42 := by
  refine ⟨rfl, by decide, rfl, rfl⟩

/-- C9 (amended): for every key holding a cached, unexpired **non-null**
value `v`, `getOrSet` returns `v` without invoking `computeFn` (a stored
`null` is indistinguishable from a miss and is recomputed); when the key
is absent or expired, `getOrSet` invokes `computeFn`, stores its result,
and returns it; and a store performed at `now` with TTL `t` seconds
carries the fresh expiry `now + t * 1000`. -/
theorem cache_getOrSet_contract {β : Type} (st : CacheState β) (k : String)
    (compute : Option β) (ttl now : Nat) :
    (∀ b exp, assocFind k st = some (some b, exp) → now ≤ exp →
        cacheGetOrSet st k compute ttl now = (st, some b, false))
    ∧ (assocFind k st = none →
        cacheGetOrSet st k compute ttl now = (cacheSet st k compute ttl now, compute, true))
    ∧ (∀ v exp, assocFind k st = some (v, exp) → exp < now →
        cacheGetOrSet st k compute ttl now =
          (cacheSet (assocErase k st) k compute ttl now, compute, true))
    ∧ assocFind k (cacheSet st k compute ttl now) = some (compute, now + ttl * 1000) := by
  refine ⟨?_, ?_, ?_, ?_⟩
  · intro b exp hf hle
    simp only [cacheGetOrSet, cacheGet, hf, if_neg (not_lt.mpr hle)]
  · intro hf
    simp only [cacheGetOrSet, cacheGet, hf]
  · intro v exp hf hlt
    simp only [cacheGetOrSet, cacheGet, hf, if_pos hlt]
  · rw [cacheSet]
    induction st with
    | nil => simp [assocSet, assocFind]
    | cons p rest ih =>
      rw [assocSet]
      by_cases hk : p.1 = k
      · rw [if_pos hk, assocFind, if_pos rfl]
      · rw [if_neg hk]
        rw [assocFind, if_neg hk]
        exact ih

/-- C9 witness: the amended contract on a concrete hit and a concrete
miss. -/
theorem cache_getOrSet_contract_witness :
    cacheGetOrSet [("k", (some 7, 99))] "k" (some 3) 60 5 =
        ([("k", ((some 7 : Option Nat), 99))], some 7, false)
    ∧ cacheGetOrSet ([] : CacheState Nat) "k" (some 3) 60 0 =
        (cacheSet [] "k" (some 3) 60 0, some 3, true) := by
  constructor
  · exact (cache_getOrSet_contract [("k", (some 7, 99))] "k" (some 3) 60 5).1 7 99 rfl
      (by decide)
  · exact (cache_getOrSet_contract [] "k" (some 3) 60 0).2.1 rfl

/-! ## Claim C10: exported detector vs the handler-local copy -/

/-- Three weekly charges: the exported detector classifies them `weekly`,
the inline handler detector has no band containing a 7-day mean. -/
def gymTxs : List Tx :=
  [ { merchant_name := "Gym", date := 0, amount := 10 },
    { merchant_name := "Gym", date := 7 * msPerDay, amount := 10 },
    { merchant_name := "Gym", date := 14 * msPerDay, amount := 10 } ]

/-- C10 counterexample: on `gymTxs` the exported detector emits one weekly
series while the handler-local detector emits nothing, so the two are not
extensionally equal. -/
theorem detectors_not_extensionally_equal_cex :
    detectRecurringChargesInline gymTxs = []
    ∧ (detectRecurringCharges gymTxs).map (fun s => s.frequency) = [.weekly]
    ∧ detectRecurringCharges gymTxs ≠ detectRecurringChargesInline gymTxs := by
  refine ⟨by with_unfolding_all rfl, by with_unfolding_all decide, ?_⟩
  intro h
  have h2 : (detectRecurringCharges gymTxs).map (fun s => s.frequency) = [.weekly] := by
    with_unfolding_all decide
  have h1 : detectRecurringChargesInline gymTxs = [] := by with_unfolding_all rfl
  rw [h, h1] at h2
  simp at h2

/-- If both classifiers accept the same mean interval, they assign the
same frequency: the exported bands meet the inline bands only in
`[28,32]` (both monthly) and `[363,367]` (both annual). -/
theorem classify_agree (q : ℚ) (f f' : Freq)
    (h1 : classifyInterval q = some f) (h2 : classifyIntervalInline q = some f') :
    f = f' := by
  rw [classifyInterval] at h1
  rw [classifyIntervalInline] at h2
  by_cases hg : (25 ≤ q ∧ q ≤ 35) ∨ (350 ≤ q ∧ q ≤ 380)
  case neg =>
    rw [if_neg hg] at h2
    exact absurd h2 (by simp)
  rw [if_pos hg] at h2
  split_ifs at h1 with hb1 hb2 hb3 hb4 hb5
  · rcases hg with ⟨h25, -⟩ | ⟨h350, -⟩ <;> linarith [hb1.2]
  · rcases hg with ⟨h25, -⟩ | ⟨h350, -⟩ <;> linarith [hb2.2]
  · rw [if_pos (show q < 50 by linarith [hb3.2])] at h2
    injection h1 with h1
    subst h1
    exact Option.some.inj h2
  · rcases hg with ⟨-, h35⟩ | ⟨h350, -⟩ <;> linarith [hb4.1, hb4.2]
  · rw [if_neg (show ¬q < 50 by push_neg; linarith [hb5.1])] at h2
    injection h1 with h1
    subst h1
    exact Option.some.inj h2

/-- C10 (amended): the exported and the handler-local detectors are not
extensionally equal (see the counterexample); what does hold is that
whenever both emit a series for the same normalized merchant on the same
input, the two series are identical — in the overlap of their bands the
frequencies coincide, and every other field is computed identically. -/
theorem detectors_agree_on_common (txs : List Tx) (s s' : Series)
    (hs : s ∈ detectRecurringCharges txs) (hs' : s' ∈ detectRecurringChargesInline txs)
    (hm : s.merchant = s'.merchant) : s = s' := by
  have hs0 : s ∈ detectWith classifyInterval txs := hs
  have hs0' : s' ∈ detectWith classifyIntervalInline txs := hs'
  obtain ⟨m1, -, hsf1⟩ := (mem_detectWith _ txs s).mp hs0
  obtain ⟨m2, -, hsf2⟩ := (mem_detectWith _ txs s').mp hs0'
  obtain ⟨h31, hf1, hm1, -⟩ := seriesFor_some _ txs m1 s hsf1
  obtain ⟨h32, hf2, hm2, -⟩ := seriesFor_some _ txs m2 s' hsf2
  have hmm : m1 = m2 := by rw [← hm1, ← hm2, hm]
  subst hmm
  have hfr : s.frequency = s'.frequency :=
    classify_agree (avgGapOf (sortByDate (groupOf txs m1))) s.frequency s'.frequency hf1 hf2
  have e1 := seriesFor_eq_some classifyInterval txs m1 s.frequency h31 hf1
  have e2 := seriesFor_eq_some classifyIntervalInline txs m1 s'.frequency h32 hf2
  rw [hsf1, Option.some.injEq] at e1
  rw [hsf2, Option.some.injEq] at e2
  rw [e1, e2, hfr]

/-- The handler-local detector also emits exactly the Spotify series
(29.5-day mean lies in its `[25,35]` band). -/
theorem spot_detect_inline_eq : detectRecurringChargesInline spotTxs = [spotSeries] := by
  with_unfolding_all rfl

/-- C10 witness: the agreement theorem applied where both detectors emit
the Spotify series. -/
theorem detectors_agree_on_common_witness : spotSeries = spotSeries :=
  detectors_agree_on_common spotTxs spotSeries spotSeries
    (by rw [spot_detect_eq]; exact List.mem_singleton_self _)
    (by rw [spot_detect_inline_eq]; exact List.mem_singleton_self _)
    rfl

end LeakDetecteur
